import Mathlib

/-!
Verification development for the moto ElasticBeanstalk in-memory backend
(src/moto/elasticbeanstalk/models.py), a registry of Applications and the
Environments they own, with ARN derivation, lookup by ARN, and tag mutation.

Python dicts (insertion-ordered, unique keys) are embedded as association
lists: a fresh key is appended at the end, an existing key keeps its
position when its value is replaced, and iteration follows list order.
Exceptions become an explicit error type; every operation that can raise
returns an Except value.  A raised exception leaves the backend unchanged
(in models.py every mutation happens only after all checks that can raise
on that path), so state-returning operations return the new state on
success and only the error on failure.
-/

/-- A single tag, embedding the Python dict literal with keys
"key" and "value" used throughout models.py. -/
structure Tag where
  key : String
  value : String
deriving DecidableEq, Repr

/-- Modelled from the spec: the fixed account placeholder `ACCOUNT_ID`
imported from moto.core, which is not under src/.  Its exact text is
irrelevant to every claim; only that it is one fixed string matters. -/
def ACCOUNT_ID : String := "123456789012"

/-- Modelled from the spec: `make_arn` from moto/elasticbeanstalk/utils.py,
which is not under src/.  Per the spec it is the pure IdentifierBuilder
turning (region, account placeholder, resource kind, resource path) into a
canonical ARN-shaped identifier string, total and injective in the path for
a fixed prelude. -/
def make_arn (region account resource_type resource_path : String) : String :=
  "arn:aws:elasticbeanstalk:" ++ region ++ ":" ++ account ++ ":"
    ++ resource_type ++ "/" ++ resource_path

/-- Modelled from the spec: the exception classes imported from
moto/elasticbeanstalk/exceptions.py, which is not under src/.  models.py
raises two distinct classes: InvalidParameterValueError (raised with a
message at two sites and bare, with no message, at one site) and
ResourceNotFoundException (always with a message); the internal KeyError
signal of the ARN scan and the interpreter-level TypeError arising from
iterating None are also represented. -/
inductive PyErr where
  | invalidParameterValue : Option String → PyErr
  | resourceNotFound : String → PyErr
  | keyError : PyErr
  | typeError : String → PyErr
deriving DecidableEq, Repr

/-- Environment (models.py lines 9-35).  The weakref back-reference to the
owning Application is flattened away: the embedding keeps each Environment
inside its Application, and the derived properties application_name,
region and environment_arn take the owning Application's name and the
backend region as arguments, mirroring the dynamic lookup through the
parent chain.  `tags` is Option because create_environment defaults the
parameter to None and Environment.__init__ stores it unchecked. -/
structure Environment where
  environment_name : String
  solution_stack_name : Option String
  tags : Option (List Tag)
deriving DecidableEq, Repr

/-- Environment.environment_arn (models.py lines 24-27): resource path is
application_name + "/" + environment_name, kind "environment". -/
def Environment.environment_arn (region application_name : String)
    (e : Environment) : String :=
  make_arn region ACCOUNT_ID "environment"
    (application_name ++ "/" ++ e.environment_name)

/-- Environment.platform_arn (models.py lines 29-31): unimplemented
placeholder. -/
def Environment.platform_arn (_e : Environment) : String := "TODO"

/-- Application (models.py lines 38-66).  The weakref back-reference to
the backend is flattened exactly like the Environment one; `region` is
passed to `arn` from the enclosing backend. -/
structure Application where
  application_name : String
  environments : List (String × Environment)
deriving DecidableEq, Repr

/-- First value stored under a key, i.e. Python dict lookup (keys are
unique in every reachable state, see the keying invariant below). -/
def assocLookup {α : Type} (l : List (String × α)) (k : String) : Option α :=
  (l.find? (fun p => p.1 = k)).map (fun p => p.2)

/-- Replace the value at a key, keeping its position: Python assignment
d[k] = v for a key already present. -/
def assocUpdate {α : Type} (l : List (String × α)) (k : String) (v : α) :
    List (String × α) :=
  l.map (fun p => if p.1 = k then (k, v) else p)

/-- Application.create_environment (models.py lines 44-58): bare raise of
InvalidParameterValueError (no message) on a duplicate environment name,
otherwise construct, insert under the name and return the Environment. -/
def Application.create_environment (a : Application)
    (environment_name : String) (solution_stack_name : Option String)
    (tags : Option (List Tag)) : Except PyErr (Application × Environment) :=
  if (assocLookup a.environments environment_name).isSome then
    .error (.invalidParameterValue none)
  else
    let env : Environment :=
      { environment_name := environment_name
        solution_stack_name := solution_stack_name
        tags := tags }
    .ok ({ a with environments := a.environments ++ [(environment_name, env)] },
         env)

/-- Application.arn (models.py lines 64-66). -/
def Application.arn (region : String) (a : Application) : String :=
  make_arn region ACCOUNT_ID "application" a.application_name

/-- EBBackend (models.py lines 69-163): region plus the insertion-ordered
mapping from application name to Application. -/
structure EBBackend where
  region : String
  applications : List (String × Application)
deriving DecidableEq, Repr

/-- EBBackend.__init__ (models.py lines 70-72). -/
def EBBackend.init (region : String) : EBBackend :=
  { region := region, applications := [] }

/-- EBBackend.reset (models.py lines 74-79): wipe the whole instance
dictionary and re-run __init__ with the saved region, i.e. a brand-new
empty applications collection under the same region. -/
def EBBackend.reset (b : EBBackend) : EBBackend :=
  EBBackend.init b.region

/-- EBBackend.create_application (models.py lines 90-97): duplicate name
raises InvalidParameterValueError with the message naming the application;
otherwise a fresh empty Application is stored under the name and returned.
The Python message is "Application {name} already exists." -/
def EBBackend.create_application (b : EBBackend) (application_name : String) :
    Except PyErr (EBBackend × Application) :=
  if (assocLookup b.applications application_name).isSome then
    .error (.invalidParameterValue
      (some ("Application " ++ application_name ++ " already exists.")))
  else
    let new_app : Application :=
      { application_name := application_name, environments := [] }
    .ok ({ b with
            applications := b.applications ++ [(application_name, new_app)] },
         new_app)

/-- EBBackend.describe_applications (models.py lines 99-100): the values
in registration order. -/
def EBBackend.describe_applications (b : EBBackend) : List Application :=
  b.applications.map (fun p => p.2)

/-- EBBackend.create_environment (models.py lines 102-116): a missing
application name raises InvalidParameterValueError with the message naming
the application (Python text "No Application named {name} found." with the
name in single quotes); otherwise delegate to the Application, whose error
propagates unchanged.  Note the defaults environment_name=None,
stack_name=None, tags=None: callers omitting tags store None. -/
def EBBackend.create_environment (b : EBBackend) (application_name : String)
    (environment_name : String) (stack_name : Option String)
    (tags : Option (List Tag)) : Except PyErr (EBBackend × Environment) :=
  match assocLookup b.applications application_name with
  | none =>
      .error (.invalidParameterValue
        (some ("No Application named " ++ application_name ++ " found.")))
  | some app =>
      match app.create_environment environment_name stack_name tags with
      | .error e => .error e
      | .ok (app2, env) =>
          .ok ({ b with
                  applications := assocUpdate b.applications application_name app2 },
               env)

/-- EBBackend.describe_environments (models.py lines 118-123): flatten all
Environments, applications in registration order, environments in
registration order within each. -/
def EBBackend.describe_environments (b : EBBackend) : List Environment :=
  b.applications.flatMap (fun p => p.2.environments.map (fun q => q.2))

/-- Every stored Environment paired with the ARN it computes, in the scan
order of models.py lines 159-160 (applications in registration order, then
environments in registration order). -/
def EBBackend.environmentsWithArns (b : EBBackend) :
    List (String × Environment) :=
  b.applications.flatMap (fun p =>
    p.2.environments.map (fun q =>
      (q.2.environment_arn b.region p.2.application_name, q.2)))

/-- Inner loop of models.py lines 159-162 over one Application's
environments dict: position and value of the first Environment whose
computed ARN equals the argument. -/
def scanEnvs (region app_name arn : String) :
    List (String × Environment) → Option (Nat × Environment)
  | [] => none
  | q :: rest =>
      if q.2.environment_arn region app_name = arn then some (0, q.2)
      else (scanEnvs region app_name arn rest).map (fun je => (je.1 + 1, je.2))

/-- Outer loop of models.py lines 159-162 over the applications dict:
(application position, environment position, Environment) of the first
match in application-registration order then environment-registration
order. -/
def scanApps (region arn : String) :
    List (String × Application) → Option (Nat × Nat × Environment)
  | [] => none
  | p :: rest =>
      match scanEnvs region p.2.application_name arn p.2.environments with
      | some je => some (0, je.1, je.2)
      | none =>
          (scanApps region arn rest).map (fun r => (r.1 + 1, r.2.1, r.2.2))

/-- EBBackend._find_environment_by_arn (models.py lines 158-163): nested
scan, first Environment whose environment_arn equals the argument; raises
KeyError when none matches. -/
def EBBackend.find_environment_by_arn (b : EBBackend) (arn : String) :
    Except PyErr Environment :=
  match scanApps b.region arn b.applications with
  | some r => .ok r.2.2
  | none => .error .keyError

/-- Overwrite the value of the first tag holding a given key: the Python
assignment existing_tag["value"] = tag["value"] at models.py line 142,
which mutates in place the first dict the generator yielded. -/
def overwriteFirstValue : List Tag → String → String → List Tag
  | [], _, _ => []
  | t :: rest, k, v =>
      if t.key = k then { t with value := v } :: rest
      else t :: overwriteFirstValue rest k v

/-- One iteration of the add loop (models.py lines 137-142): look for an
existing tag with the same key; append when absent, overwrite the first
occurrence's value when present. -/
def applyAddTag (ts : List Tag) (tag : Tag) : List Tag :=
  match ts.find? (fun t => t.key = tag.key) with
  | none => ts ++ [tag]
  | some _ => overwriteFirstValue ts tag.key tag.value

/-- Python list.remove(x) restricted to a present element: drop the first
element equal to x (models.py line 147). -/
def listRemoveFirst : List Tag → Tag → List Tag
  | [], _ => []
  | t :: rest, x => if t = x then rest else t :: listRemoveFirst rest x

/-- One iteration of the remove loop (models.py lines 144-147): find the
first tag with the key; silently keep the list when absent, otherwise
list.remove the found tag. -/
def applyRemoveKey (ts : List Tag) (k : String) : List Tag :=
  match ts.find? (fun t => t.key = k) with
  | none => ts
  | some t => listRemoveFirst ts t

/-- The add loop of models.py lines 137-142 threaded over the Option tag
field: when the field is None and the loop body runs at least once, the
generator expression next((t for t in res.tags ...)) raises TypeError
because None is not iterable. -/
def addTagsLoop : Option (List Tag) → List Tag → Except PyErr (Option (List Tag))
  | tags, [] => .ok tags
  | none, _ :: _ => .error (.typeError "NoneType object is not iterable")
  | some ts, tag :: rest => addTagsLoop (some (applyAddTag ts tag)) rest

/-- The remove loop of models.py lines 144-147, same None behaviour. -/
def removeTagsLoop :
    Option (List Tag) → List String → Except PyErr (Option (List Tag))
  | tags, [] => .ok tags
  | none, _ :: _ => .error (.typeError "NoneType object is not iterable")
  | some ts, k :: rest => removeTagsLoop (some (applyRemoveKey ts k)) rest

/-- Read the Environment at an (application position, environment
position) pair, used to express where the scan's mutation lands. -/
def EBBackend.envAtIdx (b : EBBackend) (i j : Nat) : Option Environment :=
  match b.applications.get? i with
  | none => none
  | some p => (p.2.environments.get? j).map (fun q => q.2)

/-- Replace the tag field of the Environment at an (application position,
environment position) pair, the embedding of mutating res.tags through
the object reference returned by the scan. -/
def EBBackend.setEnvTagsAtIdx (b : EBBackend) (i j : Nat)
    (tags : Option (List Tag)) : EBBackend :=
  match b.applications.get? i with
  | none => b
  | some (k, app) =>
      match app.environments.get? j with
      | none => b
      | some (ek, env) =>
          let env2 : Environment := { env with tags := tags }
          let app2 : Application :=
            { app with environments := app.environments.set j (ek, env2) }
          { b with applications := b.applications.set i (k, app2) }

/-- EBBackend.update_tags_for_resource (models.py lines 129-147): resolve
via the ARN scan, mapping its KeyError to ResourceNotFoundException with
the message naming the ARN (Python text "Resource not found for ARN
{arn}." with the ARN in single quotes); then run the add loop and the
remove loop on the resolved Environment's tags. -/
def EBBackend.update_tags_for_resource (b : EBBackend) (resource_arn : String)
    (tags_to_add : List Tag) (tags_to_remove : List String) :
    Except PyErr EBBackend :=
  match scanApps b.region resource_arn b.applications with
  | none =>
      .error (.resourceNotFound
        ("Resource not found for ARN " ++ resource_arn ++ "."))
  | some (i, j, env) =>
      match addTagsLoop env.tags tags_to_add with
      | .error e => .error e
      | .ok tags1 =>
          match removeTagsLoop tags1 tags_to_remove with
          | .error e => .error e
          | .ok tags2 => .ok (b.setEnvTagsAtIdx i j tags2)

/-- The value list_tags_for_resource returns (models.py line 156). -/
structure ListTagsResult where
  resourceArn : String
  resourceTags : Option (List Tag)
deriving DecidableEq, Repr

/-- EBBackend.list_tags_for_resource (models.py lines 149-156): resolve
via the ARN scan, mapping its KeyError to ResourceNotFoundException, and
return the ARN together with the live tag field. -/
def EBBackend.list_tags_for_resource (b : EBBackend) (resource_arn : String) :
    Except PyErr ListTagsResult :=
  match b.find_environment_by_arn resource_arn with
  | .error _ =>
      .error (.resourceNotFound
        ("Resource not found for ARN " ++ resource_arn ++ "."))
  | .ok env => .ok { resourceArn := resource_arn, resourceTags := env.tags }

/-- Observer: the result is an error (a raised exception) of any class. -/
def isErrorResult {α : Type} : Except PyErr α → Bool
  | .error _ => true
  | .ok _ => false

/-- Observer: the result is a raised ResourceNotFoundException. -/
def isResourceNotFoundError {α : Type} : Except PyErr α → Bool
  | .error (.resourceNotFound _) => true
  | _ => false

/-- Observer: the result is a raised InvalidParameterValueError. -/
def isInvalidParameterError {α : Type} : Except PyErr α → Bool
  | .error (.invalidParameterValue _) => true
  | _ => false

/-- Observer: the message carried by a raised exception, none when the
exception was raised bare or the result is not an error. -/
def errorMessage {α : Type} : Except PyErr α → Option String
  | .error (.invalidParameterValue m) => m
  | .error (.resourceNotFound m) => some m
  | .error (.typeError m) => some m
  | .error .keyError => none
  | .ok _ => none

/-- The mutating operations of the backend, for stating which states are
reachable. -/
inductive Op where
  | createApp (name : String)
  | createEnv (app env : String) (stack : Option String) (tags : Option (List Tag))
  | updateTags (arn : String) (toAdd : List Tag) (toRemove : List String)
  | reset

/-- Run one operation; a raised exception leaves the backend unchanged
(each Python method mutates only after every check on its path). -/
def applyOp (b : EBBackend) : Op → EBBackend
  | .createApp name =>
      match b.create_application name with
      | .ok p => p.1
      | .error _ => b
  | .createEnv a e st tg =>
      match b.create_environment a e st tg with
      | .ok p => p.1
      | .error _ => b
  | .updateTags arn ta tr =>
      match b.update_tags_for_resource arn ta tr with
      | .ok b2 => b2
      | .error _ => b
  | .reset => b.reset

/-- Run a sequence of operations from a state. -/
def EBBackend.run (b : EBBackend) : List Op → EBBackend
  | [] => b
  | op :: rest => EBBackend.run (applyOp b op) rest

/-- Each Environment sits in its Application's dict under a key equal to
its own environment_name. -/
def Application.WellKeyed (a : Application) : Prop :=
  ∀ q ∈ a.environments, q.1 = q.2.environment_name

/-- Each Application sits in the backend's dict under a key equal to its
own application_name, and is itself well keyed. -/
def EBBackend.WellKeyed (b : EBBackend) : Prop :=
  ∀ p ∈ b.applications, p.1 = p.2.application_name ∧ p.2.WellKeyed

/-- Concrete scenario states used by witnesses and counterexamples. -/
def bInit : EBBackend := EBBackend.init "us-east-1"

def appEmpty1 : Application := { application_name := "app1", environments := [] }

def appEmpty2 : Application := { application_name := "app2", environments := [] }

def bApp1 : EBBackend :=
  { region := "us-east-1", applications := [("app1", appEmpty1)] }

def bApp12 : EBBackend :=
  { region := "us-east-1",
    applications := [("app1", appEmpty1), ("app2", appEmpty2)] }

def envNone : Environment :=
  { environment_name := "env1", solution_stack_name := none, tags := none }

def appEnv1 : Application :=
  { application_name := "app1", environments := [("env1", envNone)] }

def bEnv1 : EBBackend :=
  { region := "us-east-1", applications := [("app1", appEnv1)] }

def bEnv1App2 : EBBackend :=
  { region := "us-east-1",
    applications := [("app1", appEnv1), ("app2", appEmpty2)] }

def arnEnv1 : String := envNone.environment_arn "us-east-1" "app1"

def envTagA1 : Environment :=
  { environment_name := "env1", solution_stack_name := none,
    tags := some [{ key := "a", value := "1" }] }

def appTagA1 : Application :=
  { application_name := "app1", environments := [("env1", envTagA1)] }

def bTagA1 : EBBackend :=
  { region := "us-east-1", applications := [("app1", appTagA1)] }

def envTagA2 : Environment :=
  { environment_name := "env1", solution_stack_name := none,
    tags := some [{ key := "a", value := "2" }] }

def appTagA2 : Application :=
  { application_name := "app1", environments := [("env1", envTagA2)] }

def bTagA2 : EBBackend :=
  { region := "us-east-1", applications := [("app1", appTagA2)] }


theorem assocLookup_nil {α : Type} (k : String) :
    assocLookup ([] : List (String × α)) k = none := rfl

theorem assocLookup_cons {α : Type} (p : String × α) (rest : List (String × α))
    (k : String) :
    assocLookup (p :: rest) k
      = if p.1 = k then some p.2 else assocLookup rest k := by
  by_cases hp : p.1 = k <;> simp [assocLookup, List.find?_cons, hp]

theorem assocUpdate_cons {α : Type} (p : String × α) (rest : List (String × α))
    (k : String) (v : α) :
    assocUpdate (p :: rest) k v
      = (if p.1 = k then (k, v) else p) :: assocUpdate rest k v := rfl

theorem assocLookup_append {α : Type} (l1 l2 : List (String × α)) (k : String)
    (h : assocLookup l1 k = none) :
    assocLookup (l1 ++ l2) k = assocLookup l2 k := by
  unfold assocLookup at h ⊢
  rw [List.find?_append]
  cases hf : l1.find? (fun p => p.1 = k) with
  | none => simp [hf]
  | some p => simp [hf] at h

theorem assocLookup_some {α : Type} {l : List (String × α)} {k : String}
    {v : α} (h : assocLookup l k = some v) : (k, v) ∈ l := by
  unfold assocLookup at h
  cases hf : l.find? (fun p => p.1 = k) with
  | none => simp [hf] at h
  | some p =>
      simp [hf] at h
      have hp := List.find?_some hf
      have hm := List.mem_of_find?_eq_some hf
      simp at hp
      have hkv : (k, v) = p := by
        rw [← hp, ← h]
      rw [hkv]
      exact hm

theorem assocLookup_assocUpdate_self {α : Type} (l : List (String × α))
    (k : String) (v : α) (h : (assocLookup l k).isSome) :
    assocLookup (assocUpdate l k v) k = some v := by
  induction l with
  | nil => simp [assocLookup] at h
  | cons p rest ih =>
      by_cases hp : p.1 = k
      · simp [assocUpdate_cons, assocLookup_cons, hp]
      · rw [assocLookup_cons, if_neg hp] at h
        rw [assocUpdate_cons, if_neg hp, assocLookup_cons, if_neg hp]
        exact ih h

theorem assocLookup_assocUpdate_ne {α : Type} (l : List (String × α))
    (k k2 : String) (v : α) (h : k2 ≠ k) :
    assocLookup (assocUpdate l k v) k2 = assocLookup l k2 := by
  induction l with
  | nil => rfl
  | cons p rest ih =>
      rw [assocUpdate_cons, assocLookup_cons, assocLookup_cons]
      by_cases hp : p.1 = k
      · have hk2 : ¬((k, v).1 = k2) := fun he => h (he.symm)
        rw [if_pos hp, if_neg hk2]
        have hpk2 : ¬(p.1 = k2) := by
          rw [hp]
          exact fun he => h he.symm
        rw [if_neg hpk2]
        exact ih
      · rw [if_neg hp]
        by_cases hq : p.1 = k2
        · rw [if_pos hq, if_pos hq]
        · rw [if_neg hq, if_neg hq]
          exact ih

theorem List.set_get?_self {α : Type} :
    ∀ (l : List α) (n : Nat) (a : α), l.get? n = some a → l.set n a = l
  | [], _, _, h => nomatch h
  | x :: xs, 0, a, h => by
      have hx : x = a := Option.some.inj h
      show a :: xs = x :: xs
      rw [hx]
  | x :: xs, n + 1, a, h => by
      show x :: xs.set n a = x :: xs
      rw [List.set_get?_self xs n a h]

theorem scanEnvs_map_snd (region app_name arn : String)
    (envs : List (String × Environment)) :
    (scanEnvs region app_name arn envs).map (fun je => je.2)
      = ((envs.map (fun q => (q.2.environment_arn region app_name, q.2))).find?
          (fun p => p.1 = arn)).map (fun p => p.2) := by
  induction envs with
  | nil => rfl
  | cons q rest ih =>
      by_cases hq : q.2.environment_arn region app_name = arn
      · simp [scanEnvs, hq, List.find?_cons]
      · rw [List.map_cons,
          List.find?_cons_of_neg _ (by simpa using hq)]
        simp only [scanEnvs, hq, if_false]
        rw [Option.map_map, ← ih]
        cases scanEnvs region app_name arn rest <;> rfl

theorem scanApps_map_snd (region arn : String)
    (apps : List (String × Application)) :
    (scanApps region arn apps).map (fun r => r.2.2)
      = ((apps.flatMap (fun p =>
            p.2.environments.map (fun q =>
              (q.2.environment_arn region p.2.application_name, q.2)))).find?
          (fun p => p.1 = arn)).map (fun p => p.2) := by
  induction apps with
  | nil => rfl
  | cons p rest ih =>
      rw [List.flatMap_cons, List.find?_append]
      have hinner := scanEnvs_map_snd region p.2.application_name arn
        p.2.environments
      cases hs : scanEnvs region p.2.application_name arn p.2.environments with
      | some je =>
          rw [hs] at hinner
          cases hf : (p.2.environments.map (fun q =>
              (q.2.environment_arn region p.2.application_name, q.2))).find?
              (fun pr => pr.1 = arn) with
          | none => rw [hf] at hinner; simp at hinner
          | some pr =>
              rw [hf] at hinner
              simp at hinner
              simp [scanApps, hs, hf, hinner]
      | none =>
          rw [hs] at hinner
          cases hf : (p.2.environments.map (fun q =>
              (q.2.environment_arn region p.2.application_name, q.2))).find?
              (fun pr => pr.1 = arn) with
          | some pr => rw [hf] at hinner; simp at hinner
          | none =>
              rw [hf] at hinner
              simp only [scanApps, hs, hf, Option.none_or]
              rw [Option.map_map, ← ih]
              cases scanApps region arn rest <;> rfl

theorem EBBackend.environmentsWithArns_eq (b : EBBackend) :
    b.environmentsWithArns
      = b.applications.flatMap (fun p =>
          p.2.environments.map (fun q =>
            (q.2.environment_arn b.region p.2.application_name, q.2))) := rfl

theorem scanEnvs_get {region app_name arn : String}
    {envs : List (String × Environment)} {j : Nat} {env : Environment}
    (h : scanEnvs region app_name arn envs = some (j, env)) :
    ∃ q, envs.get? j = some q ∧ q.2 = env
      ∧ q.2.environment_arn region app_name = arn := by
  induction envs generalizing j with
  | nil => simp [scanEnvs] at h
  | cons q rest ih =>
      by_cases hq : q.2.environment_arn region app_name = arn
      · simp [scanEnvs, hq] at h
        obtain ⟨hj, he⟩ := h
        exact ⟨q, by simp [← hj], by rw [he], hq⟩
      · simp only [scanEnvs, hq, if_false] at h
        cases hs : scanEnvs region app_name arn rest with
        | none => rw [hs] at h; simp at h
        | some je =>
            rw [hs] at h
            simp at h
            obtain ⟨hj, he⟩ := h
            obtain ⟨q2, hq2, hq2e, hq2a⟩ := ih (j := je.1) (by rw [hs, ← he])
            refine ⟨q2, ?_, hq2e, hq2a⟩
            rw [← hj]
            simpa using hq2

theorem scanApps_get {region arn : String}
    {apps : List (String × Application)} {i j : Nat} {env : Environment}
    (h : scanApps region arn apps = some (i, j, env)) :
    ∃ p, apps.get? i = some p
      ∧ ∃ q, p.2.environments.get? j = some q ∧ q.2 = env
          ∧ q.2.environment_arn region p.2.application_name = arn := by
  induction apps generalizing i with
  | nil => simp [scanApps] at h
  | cons p rest ih =>
      cases hs : scanEnvs region p.2.application_name arn p.2.environments with
      | some je =>
          obtain ⟨j2, e2⟩ := je
          rw [scanApps, hs] at h
          simp at h
          obtain ⟨hi, hj, he⟩ := h
          obtain ⟨q, hq, hqe, hqa⟩ := scanEnvs_get hs
          refine ⟨p, by simp [← hi], q, ?_, by rw [hqe, he], hqa⟩
          rw [← hj]
          exact hq
      | none =>
          rw [scanApps, hs] at h
          cases hr : scanApps region arn rest with
          | none => rw [hr] at h; simp at h
          | some r =>
              obtain ⟨i2, j2, e2⟩ := r
              rw [hr] at h
              simp at h
              obtain ⟨hi, hj, he⟩ := h
              obtain ⟨p2, hp2, q2, hq2, hq2e, hq2a⟩ :=
                ih (i := i2) (by rw [hr, hj, he])
              refine ⟨p2, ?_, q2, hq2, hq2e, hq2a⟩
              rw [← hi]
              simpa using hp2

theorem create_application_ok {b : EBBackend} {A : String} {b1 : EBBackend}
    {app : Application} (h : b.create_application A = .ok (b1, app)) :
    assocLookup b.applications A = none
      ∧ app = { application_name := A, environments := [] }
      ∧ b1 = { b with applications := b.applications ++ [(A, app)] } := by
  unfold EBBackend.create_application at h
  cases hA : assocLookup b.applications A with
  | some v => rw [hA] at h; simp at h
  | none =>
      rw [hA] at h
      simp at h
      obtain ⟨h1, h2⟩ := h
      exact ⟨rfl, h2.symm, by rw [← h1, ← h2]⟩

theorem create_environment_app_ok {a : Application} {E : String}
    {st : Option String} {tg : Option (List Tag)} {a1 : Application}
    {env : Environment} (h : a.create_environment E st tg = .ok (a1, env)) :
    assocLookup a.environments E = none
      ∧ env = { environment_name := E, solution_stack_name := st, tags := tg }
      ∧ a1 = { a with environments := a.environments ++ [(E, env)] } := by
  unfold Application.create_environment at h
  cases hE : assocLookup a.environments E with
  | some v => rw [hE] at h; simp at h
  | none =>
      rw [hE] at h
      simp at h
      obtain ⟨h1, h2⟩ := h
      exact ⟨rfl, h2.symm, by rw [← h1, ← h2]⟩

theorem create_environment_ok {b : EBBackend} {A E : String}
    {st : Option String} {tg : Option (List Tag)} {b1 : EBBackend}
    {env : Environment}
    (h : b.create_environment A E st tg = .ok (b1, env)) :
    ∃ app, assocLookup b.applications A = some app
      ∧ assocLookup app.environments E = none
      ∧ env = { environment_name := E, solution_stack_name := st, tags := tg }
      ∧ b1.region = b.region
      ∧ b1.applications = assocUpdate b.applications A
          { app with environments := app.environments ++ [(E, env)] } := by
  unfold EBBackend.create_environment at h
  cases hA : assocLookup b.applications A with
  | none => rw [hA] at h; simp at h
  | some app =>
      rw [hA] at h
      dsimp only at h
      cases hc : app.create_environment E st tg with
      | error e => rw [hc] at h; simp at h
      | ok p =>
          obtain ⟨a1, env1⟩ := p
          rw [hc] at h
          simp at h
          obtain ⟨h1, h2⟩ := h
          obtain ⟨hE, henv, ha1⟩ := create_environment_app_ok hc
          refine ⟨app, rfl, hE, by rw [← h2, henv], by rw [← h1], ?_⟩
          rw [← h1, ha1, ← h2, henv]

theorem update_tags_ok {b : EBBackend} {arn : String} {ta : List Tag}
    {tr : List String} {b2 : EBBackend}
    (h : b.update_tags_for_resource arn ta tr = .ok b2) :
    ∃ i j env tags1 tags2,
      scanApps b.region arn b.applications = some (i, j, env)
        ∧ addTagsLoop env.tags ta = .ok tags1
        ∧ removeTagsLoop tags1 tr = .ok tags2
        ∧ b2 = b.setEnvTagsAtIdx i j tags2 := by
  unfold EBBackend.update_tags_for_resource at h
  cases hs : scanApps b.region arn b.applications with
  | none => rw [hs] at h; simp at h
  | some r =>
      obtain ⟨i, j, env⟩ := r
      rw [hs] at h
      dsimp only at h
      cases ha : addTagsLoop env.tags ta with
      | error e => rw [ha] at h; simp at h
      | ok tags1 =>
          rw [ha] at h
          dsimp only at h
          cases hr : removeTagsLoop tags1 tr with
          | error e => rw [hr] at h; simp at h
          | ok tags2 =>
              rw [hr] at h
              simp at h
              exact ⟨i, j, env, tags1, tags2, rfl, ha, hr, h.symm⟩

theorem find?_key_none (ts : List Tag) (k : String)
    (h : ∀ t ∈ ts, t.key ≠ k) :
    ts.find? (fun t => t.key = k) = none := by
  rw [List.find?_eq_none]
  intro t ht
  simpa using h t ht

theorem find?_key_decomp (l1 : List Tag) (t : Tag) (l2 : List Tag)
    (k : String) (h1 : ∀ u ∈ l1, u.key ≠ k) (h2 : t.key = k) :
    (l1 ++ t :: l2).find? (fun u => u.key = k) = some t := by
  rw [List.find?_append, find?_key_none l1 k h1, Option.none_or,
    List.find?_cons_of_pos _ (by simpa using h2)]

theorem overwriteFirstValue_decomp (l1 : List Tag) (t : Tag) (l2 : List Tag)
    (k v : String) (h1 : ∀ u ∈ l1, u.key ≠ k) (h2 : t.key = k) :
    overwriteFirstValue (l1 ++ t :: l2) k v
      = l1 ++ { key := t.key, value := v } :: l2 := by
  induction l1 with
  | nil =>
      simp only [List.nil_append, overwriteFirstValue, h2, if_pos]
  | cons u rest ih =>
      have hu : u.key ≠ k := h1 u (List.mem_cons_self u rest)
      simp only [List.cons_append, overwriteFirstValue, hu, if_false,
        List.append_eq]
      rw [ih (fun w hw => h1 w (List.mem_cons_of_mem u hw))]

theorem applyAddTag_absent (ts : List Tag) (tag : Tag)
    (h : ∀ t ∈ ts, t.key ≠ tag.key) :
    applyAddTag ts tag = ts ++ [tag] := by
  unfold applyAddTag
  rw [find?_key_none ts tag.key h]

theorem applyAddTag_present (l1 : List Tag) (t : Tag) (l2 : List Tag)
    (tag : Tag) (h1 : ∀ u ∈ l1, u.key ≠ tag.key) (h2 : t.key = tag.key) :
    applyAddTag (l1 ++ t :: l2) tag
      = l1 ++ { key := t.key, value := tag.value } :: l2 := by
  unfold applyAddTag
  rw [find?_key_decomp l1 t l2 tag.key h1 h2]
  exact overwriteFirstValue_decomp l1 t l2 tag.key tag.value h1 h2

theorem listRemoveFirst_decomp (l1 : List Tag) (t : Tag) (l2 : List Tag)
    (h : ∀ u ∈ l1, u ≠ t) :
    listRemoveFirst (l1 ++ t :: l2) t = l1 ++ l2 := by
  induction l1 with
  | nil => simp [listRemoveFirst]
  | cons u rest ih =>
      have hu : u ≠ t := h u (List.mem_cons_self u rest)
      simp only [List.cons_append, listRemoveFirst, hu, if_false,
        List.append_eq]
      rw [ih (fun w hw => h w (List.mem_cons_of_mem u hw))]

theorem applyRemoveKey_absent (ts : List Tag) (k : String)
    (h : ∀ t ∈ ts, t.key ≠ k) :
    applyRemoveKey ts k = ts := by
  unfold applyRemoveKey
  rw [find?_key_none ts k h]

theorem applyRemoveKey_present (l1 : List Tag) (t : Tag) (l2 : List Tag)
    (k : String) (h1 : ∀ u ∈ l1, u.key ≠ k) (h2 : t.key = k) :
    applyRemoveKey (l1 ++ t :: l2) k = l1 ++ l2 := by
  unfold applyRemoveKey
  rw [find?_key_decomp l1 t l2 k h1 h2]
  refine listRemoveFirst_decomp l1 t l2 (fun u hu he => ?_)
  exact h1 u hu (by rw [he, h2])

theorem addTagsLoop_nil (tags : Option (List Tag)) :
    addTagsLoop tags [] = .ok tags := by
  cases tags <;> rfl

theorem removeTagsLoop_nil (tags : Option (List Tag)) :
    removeTagsLoop tags [] = .ok tags := by
  cases tags <;> rfl

theorem setEnvTagsAtIdx_self {b : EBBackend} {i j : Nat}
    {p : String × Application} {q : String × Environment}
    (hp : b.applications.get? i = some p)
    (hq : p.2.environments.get? j = some q) :
    b.setEnvTagsAtIdx i j q.2.tags = b := by
  obtain ⟨k, app⟩ := p
  obtain ⟨ek, env⟩ := q
  unfold EBBackend.setEnvTagsAtIdx
  rw [hp]
  dsimp only
  rw [hq]
  dsimp only
  have h1 : ({ env with tags := env.tags } : Environment) = env := rfl
  rw [h1, List.set_get?_self _ _ _ hq]
  have h2 : ({ app with environments := app.environments } : Application) = app := rfl
  rw [h2, List.set_get?_self _ _ _ hp]

theorem setEnvTagsAtIdx_wellKeyed {b : EBBackend} (h : b.WellKeyed)
    (i j : Nat) (tags : Option (List Tag)) :
    (b.setEnvTagsAtIdx i j tags).WellKeyed := by
  unfold EBBackend.setEnvTagsAtIdx
  cases hp : b.applications.get? i with
  | none => exact h
  | some p =>
      obtain ⟨k, app⟩ := p
      dsimp only
      cases hq : app.environments.get? j with
      | none => exact h
      | some q =>
          obtain ⟨ek, env⟩ := q
          dsimp only
          intro pr hpr
          rcases List.mem_or_eq_of_mem_set hpr with hold | hnew
          · exact h pr hold
          · have hmem := List.get?_mem hp
            obtain ⟨hk, happ⟩ := h (k, app) hmem
            have hek := happ (ek, env) (List.get?_mem hq)
            subst hnew
            refine ⟨hk, ?_⟩
            intro qr hqr
            rcases List.mem_or_eq_of_mem_set hqr with hold2 | hnew2
            · exact happ qr hold2
            · subst hnew2
              exact hek

/-- C1: for every backend with region r, every stored Application and
every Environment it owns, the Environment's ARN is the make_arn string
over (r, account placeholder, "environment", appName / envName) and the
Application's ARN the one over (r, account placeholder, "application",
appName); both are pure functions of the two names and the region (they
ignore every other field), so repeated calls without mutation agree. -/
theorem C1_identifier_derivation (b : EBBackend) (p : String × Application)
    (hp : p ∈ b.applications) (q : String × Environment)
    (hq : q ∈ p.2.environments) :
    q.2.environment_arn b.region p.2.application_name
      = make_arn b.region ACCOUNT_ID "environment"
          (p.2.application_name ++ "/" ++ q.2.environment_name)
    ∧ p.2.arn b.region
      = make_arn b.region ACCOUNT_ID "application" p.2.application_name
    ∧ (∀ e2 : Environment,
        e2.environment_name = q.2.environment_name →
        e2.environment_arn b.region p.2.application_name
          = q.2.environment_arn b.region p.2.application_name)
    ∧ (∀ a2 : Application,
        a2.application_name = p.2.application_name →
        a2.arn b.region = p.2.arn b.region) := by
  refine ⟨rfl, rfl, fun e2 he => ?_, fun a2 ha => ?_⟩
  · unfold Environment.environment_arn
    rw [he]
  · unfold Application.arn
    rw [ha]

theorem C1_witness :
    envNone.environment_arn bEnv1.region appEnv1.application_name
      = make_arn bEnv1.region ACCOUNT_ID "environment"
          (appEnv1.application_name ++ "/" ++ envNone.environment_name) :=
  (C1_identifier_derivation bEnv1 ("app1", appEnv1)
    (by simp [bEnv1]) ("env1", envNone) (by simp [appEnv1])).1

/-- C2: the ARN lookup returns exactly the first Environment, in
application-registration order then environment-registration order, whose
computed ARN equals the argument, and raises its not-found signal
(KeyError, surfaced by listTags as ResourceNotFound) precisely when no
stored Environment's ARN equals the argument. -/
theorem C2_find_environment_by_identifier (b : EBBackend) (arn : String) :
    (b.find_environment_by_arn arn
        = match (b.environmentsWithArns).find? (fun pr => pr.1 = arn) with
          | some pr => Except.ok pr.2
          | none => Except.error PyErr.keyError)
    ∧ (b.find_environment_by_arn arn = .error .keyError
        ↔ ∀ pr ∈ b.environmentsWithArns, pr.1 ≠ arn)
    ∧ (b.list_tags_for_resource arn
          = .error (.resourceNotFound
              ("Resource not found for ARN " ++ arn ++ "."))
        ↔ ∀ pr ∈ b.environmentsWithArns, pr.1 ≠ arn) := by
  have hmap := scanApps_map_snd b.region arn b.applications
  rw [← EBBackend.environmentsWithArns_eq] at hmap
  have hchar : b.find_environment_by_arn arn
      = match (b.environmentsWithArns).find? (fun pr => pr.1 = arn) with
        | some pr => Except.ok pr.2
        | none => Except.error PyErr.keyError := by
    unfold EBBackend.find_environment_by_arn
    cases hs : scanApps b.region arn b.applications with
    | none =>
        rw [hs] at hmap
        cases hf : (b.environmentsWithArns).find? (fun pr => pr.1 = arn) with
        | some pr => rw [hf] at hmap; simp at hmap
        | none => rfl
    | some r =>
        rw [hs] at hmap
        cases hf : (b.environmentsWithArns).find? (fun pr => pr.1 = arn) with
        | none => rw [hf] at hmap; simp at hmap
        | some pr =>
            rw [hf] at hmap
            simp at hmap
            dsimp only
            rw [hmap]
  refine ⟨hchar, ?_, ?_⟩
  · rw [hchar]
    cases hf : (b.environmentsWithArns).find? (fun pr => pr.1 = arn) with
    | some pr =>
        dsimp only
        constructor
        · intro he; simp at he
        · intro hall
          have hp := List.find?_some hf
          have hm := List.mem_of_find?_eq_some hf
          simp at hp
          exact absurd hp (hall pr hm)
    | none =>
        dsimp only
        constructor
        · intro _ pr hpr
          have := List.find?_eq_none.mp hf pr hpr
          simpa using this
        · intro _; rfl
  · unfold EBBackend.list_tags_for_resource
    rw [hchar]
    cases hf : (b.environmentsWithArns).find? (fun pr => pr.1 = arn) with
    | some pr =>
        dsimp only
        constructor
        · intro he; simp at he
        · intro hall
          have hp := List.find?_some hf
          have hm := List.mem_of_find?_eq_some hf
          simp at hp
          exact absurd hp (hall pr hm)
    | none =>
        dsimp only
        constructor
        · intro _ pr hpr
          have := List.find?_eq_none.mp hf pr hpr
          simpa using this
        · intro _; rfl

/-- C5: after a successful createApplication(A), a second
createApplication(A) fails with the duplicate error carrying A's name,
and A is still registered, mapped to the first Application. -/
theorem C5_duplicate_application (b : EBBackend) (A : String)
    (b1 : EBBackend) (app : Application)
    (h : b.create_application A = .ok (b1, app)) :
    b1.create_application A
      = .error (.invalidParameterValue
          (some ("Application " ++ A ++ " already exists.")))
    ∧ assocLookup b1.applications A = some app := by
  obtain ⟨hA, happ, hb1⟩ := create_application_ok h
  have hl : assocLookup b1.applications A = some app := by
    rw [hb1]
    dsimp only
    rw [assocLookup_append _ _ _ hA, assocLookup_cons]
    simp
  refine ⟨?_, hl⟩
  unfold EBBackend.create_application
  rw [hl]
  rfl

theorem C5_witness :
    bApp1.create_application "app1"
      = .error (.invalidParameterValue
          (some "Application app1 already exists.")) :=
  (C5_duplicate_application bInit "app1" bApp1 appEmpty1 rfl).1

/-- C8: reset preserves the region, empties the applications collection,
and afterwards no identifier (in particular none computed from a
pre-reset Application or Environment) resolves: the scan raises its
not-found signal and listTags raises ResourceNotFound for every ARN. -/
theorem C8_reset (b : EBBackend) :
    (b.reset).region = b.region
    ∧ (b.reset).applications = []
    ∧ (∀ arn, (b.reset).find_environment_by_arn arn = .error .keyError)
    ∧ (∀ arn, (b.reset).list_tags_for_resource arn
        = .error (.resourceNotFound
            ("Resource not found for ARN " ++ arn ++ "."))) :=
  ⟨rfl, rfl, fun _ => rfl, fun _ => rfl⟩

/-- C3 counterexample: on an empty registry, createEnvironment for the
unregistered application name app1 raises InvalidParameterValueError (the
class shared with the duplicate errors), not ResourceNotFoundException,
refuting the claim that the failure is ResourceNotFound. -/
theorem C3_counterexample :
    isResourceNotFoundError
        (bInit.create_environment "app1" "env1" none none) = false
    ∧ isErrorResult (bInit.create_environment "app1" "env1" none none) = true
    ∧ bInit.create_environment "app1" "env1" none none
        = .error (.invalidParameterValue
            (some "No Application named app1 found.")) :=
  ⟨rfl, rfl, rfl⟩

/-- C3 amended: for an unregistered application name the failure is an
InvalidParameterValueError carrying the message naming the application
(the exception class of the duplicate errors, not
ResourceNotFoundException); for a registered name the call delegates to
the Application and propagates its error unchanged. -/
theorem C3_missing_application_error (b : EBBackend) (a e : String)
    (st : Option String) (tg : Option (List Tag)) :
    (assocLookup b.applications a = none →
      b.create_environment a e st tg
        = .error (.invalidParameterValue
            (some ("No Application named " ++ a ++ " found."))))
    ∧ (∀ app err, assocLookup b.applications a = some app →
        app.create_environment e st tg = .error err →
        b.create_environment a e st tg = .error err) := by
  constructor
  · intro h
    unfold EBBackend.create_environment
    rw [h]
  · intro app err h1 h2
    unfold EBBackend.create_environment
    rw [h1]
    dsimp only
    rw [h2]

theorem C3_witness :
    bInit.create_environment "app2" "env1" none none
      = .error (.invalidParameterValue
          (some "No Application named app2 found.")) :=
  (C3_missing_application_error bInit "app2" "env1" none none).1 rfl

/-- C4 counterexample: creating env1 under app1 twice makes the second
call raise the duplicate error with no message at all (the bare raise at
models.py line 48), so the error does not carry the conflicting name,
refuting that part of the claim. -/
theorem C4_counterexample :
    bEnv1.create_environment "app1" "env1" none none
      = .error (.invalidParameterValue none)
    ∧ errorMessage (bEnv1.create_environment "app1" "env1" none none)
      = none :=
  ⟨rfl, rfl⟩

/-- C4 amended: after creating Environment E under Application A, a
second creation of E under A fails with the duplicate
InvalidParameterValueError raised bare (carrying no message, hence not
the conflicting name), while creating the same E under a different
registered application that lacks E succeeds. -/
theorem C4_duplicate_environment (b : EBBackend) (A A2 E : String)
    (st st2 : Option String) (tg tg2 : Option (List Tag))
    (b1 : EBBackend) (env : Environment)
    (h1 : b.create_environment A E st tg = .ok (b1, env)) :
    b1.create_environment A E st2 tg2
      = .error (.invalidParameterValue none)
    ∧ (∀ app2, A2 ≠ A → assocLookup b1.applications A2 = some app2 →
        assocLookup app2.environments E = none →
        isErrorResult (b1.create_environment A2 E st2 tg2) = false) := by
  obtain ⟨app, hA, hE, henv, hreg, happs⟩ := create_environment_ok h1
  constructor
  · unfold EBBackend.create_environment
    have hlook : assocLookup b1.applications A
        = some { app with environments := app.environments ++ [(E, env)] } := by
      rw [happs]
      exact assocLookup_assocUpdate_self _ _ _ (by rw [hA]; rfl)
    rw [hlook]
    dsimp only
    unfold Application.create_environment
    have hfound : assocLookup
        ({ app with environments := app.environments ++ [(E, env)] }
          : Application).environments E = some env := by
      dsimp only
      rw [assocLookup_append _ _ _ hE, assocLookup_cons]
      simp
    rw [hfound]
    rfl
  · intro app2 hne h2 h3
    unfold EBBackend.create_environment
    rw [h2]
    dsimp only
    unfold Application.create_environment
    rw [h3]
    rfl

theorem C4_witness :
    bEnv1App2.create_environment "app1" "env1" none none
      = .error (.invalidParameterValue none)
    ∧ isErrorResult (bEnv1App2.create_environment "app2" "env1" none none)
      = false := by
  have h := C4_duplicate_environment bApp12 "app1" "app2" "env1" none none
    none none bEnv1App2 envNone rfl
  exact ⟨h.1, h.2 appEmpty2 (by decide) rfl rfl⟩

/-- C6: for each tag added, an existing tag with the same key has its
value overwritten at its original position with the key sequence
unchanged (so no duplicate key is introduced), and a tag with a fresh key
is appended; concretely, tags [(a,1)] updated with toAdd=[(a,2)] and
nothing to remove end as exactly [(a,2)]. -/
theorem C6_tag_upsert (ts : List Tag) (tag : Tag) :
    ((∀ t ∈ ts, t.key ≠ tag.key) → applyAddTag ts tag = ts ++ [tag])
    ∧ (∀ l1 t l2, ts = l1 ++ t :: l2 → (∀ u ∈ l1, u.key ≠ tag.key) →
        t.key = tag.key →
        applyAddTag ts tag = l1 ++ { key := t.key, value := tag.value } :: l2
          ∧ (applyAddTag ts tag).map Tag.key = ts.map Tag.key)
    ∧ bTagA1.update_tags_for_resource arnEnv1
        [{ key := "a", value := "2" }] [] = .ok bTagA2 := by
  refine ⟨fun h => applyAddTag_absent ts tag h, ?_, ?_⟩
  · intro l1 t l2 hts h1 h2
    subst hts
    have hmain := applyAddTag_present l1 t l2 tag h1 h2
    refine ⟨hmain, ?_⟩
    rw [hmain]
    simp
  · rfl

theorem C6_witness :
    applyAddTag [{ key := "a", value := "1" }] { key := "a", value := "2" }
      = [{ key := "a", value := "2" }]
    ∧ applyAddTag [{ key := "b", value := "1" }] { key := "a", value := "2" }
      = [{ key := "b", value := "1" }, { key := "a", value := "2" }] := by
  constructor
  · exact ((C6_tag_upsert [{ key := "a", value := "1" }]
      { key := "a", value := "2" }).2.1 []
      { key := "a", value := "1" } [] rfl (by decide) rfl).1
  · exact (C6_tag_upsert [{ key := "b", value := "1" }]
      { key := "a", value := "2" }).1 (by decide)

/-- C7: for each key removed, the first tag with that key is dropped when
present; when no tag has the key the removal is a silent no-op: no error
is raised and the whole backend, in particular the tag sequence, is left
exactly unchanged. -/
theorem C7_tag_removal (ts : List Tag) (k : String) :
    ((∀ t ∈ ts, t.key ≠ k) → applyRemoveKey ts k = ts)
    ∧ (∀ l1 t l2, ts = l1 ++ t :: l2 → (∀ u ∈ l1, u.key ≠ k) → t.key = k →
        applyRemoveKey ts k = l1 ++ l2)
    ∧ (∀ (b : EBBackend) (arn : String) (i j : Nat) (env : Environment),
        scanApps b.region arn b.applications = some (i, j, env) →
        env.tags = some ts →
        (∀ t ∈ ts, t.key ≠ k) →
        b.update_tags_for_resource arn [] [k] = .ok b) := by
  refine ⟨fun h => applyRemoveKey_absent ts k h, ?_, ?_⟩
  · intro l1 t l2 hts h1 h2
    subst hts
    exact applyRemoveKey_present l1 t l2 k h1 h2
  · intro b arn i j env hs htags habs
    unfold EBBackend.update_tags_for_resource
    rw [hs]
    dsimp only
    rw [htags, addTagsLoop_nil]
    dsimp only
    have hrem : removeTagsLoop (some ts) [k] = .ok (some ts) := by
      show removeTagsLoop (some (applyRemoveKey ts k)) [] = .ok (some ts)
      rw [applyRemoveKey_absent ts k habs]
      exact removeTagsLoop_nil _
    rw [hrem]
    dsimp only
    obtain ⟨p, hp, q, hq, hqe, hqa⟩ := scanApps_get hs
    have hqt : q.2.tags = some ts := by rw [hqe, htags]
    rw [← hqt, setEnvTagsAtIdx_self hp hq]

theorem C7_witness :
    bTagA1.update_tags_for_resource arnEnv1 [] ["zz"] = .ok bTagA1
    ∧ applyRemoveKey [{ key := "a", value := "1" }] "a" = [] := by
  constructor
  · exact (C7_tag_removal [{ key := "a", value := "1" }] "zz").2.2
      bTagA1 arnEnv1 0 0 envTagA1 rfl rfl (by decide)
  · exact (C7_tag_removal [{ key := "a", value := "1" }] "a").2.1
      [] { key := "a", value := "1" } [] rfl (by decide) rfl

theorem applyOp_wellKeyed {b : EBBackend} (h : b.WellKeyed) (op : Op) :
    (applyOp b op).WellKeyed := by
  cases op with
  | createApp name =>
      unfold applyOp
      dsimp only
      cases hr : b.create_application name with
      | error e => exact h
      | ok p =>
          obtain ⟨b1, app⟩ := p
          obtain ⟨hA, happ, hb1⟩ := create_application_ok hr
          dsimp only
          rw [hb1]
          intro pr hpr
          dsimp only at hpr
          rcases List.mem_append.mp hpr with hold | hnew
          · exact h pr hold
          · have hpr2 : pr = (name, app) := by simpa using hnew
            subst hpr2
            subst happ
            exact ⟨rfl, fun q hq => absurd hq (List.not_mem_nil q)⟩
  | createEnv a e st tg =>
      unfold applyOp
      dsimp only
      cases hr : b.create_environment a e st tg with
      | error e2 => exact h
      | ok p =>
          obtain ⟨b1, env⟩ := p
          obtain ⟨app, hA, hE, henv, hreg, happs⟩ := create_environment_ok hr
          dsimp only
          intro pr hpr
          rw [happs] at hpr
          unfold assocUpdate at hpr
          rcases List.mem_map.mp hpr with ⟨orig, horig, heq⟩
          by_cases hcase : orig.1 = a
          · rw [if_pos hcase] at heq
            subst heq
            have hmem := assocLookup_some hA
            obtain ⟨hk, hwk⟩ := h (a, app) hmem
            refine ⟨hk, ?_⟩
            intro q hq
            dsimp only at hq
            rcases List.mem_append.mp hq with hold2 | hnew2
            · exact hwk q hold2
            · have hq2 : q = (e, env) := by simpa using hnew2
              subst hq2
              rw [henv]
          · rw [if_neg hcase] at heq
            subst heq
            exact h orig horig
  | updateTags arn ta tr =>
      unfold applyOp
      dsimp only
      cases hr : b.update_tags_for_resource arn ta tr with
      | error e => exact h
      | ok b2 =>
          obtain ⟨i, j, env, t1, t2, hs, ha, hrm, hb2⟩ := update_tags_ok hr
          dsimp only
          rw [hb2]
          exact setEnvTagsAtIdx_wellKeyed h i j t2
  | reset =>
      unfold applyOp
      dsimp only
      intro pr hpr
      simp [EBBackend.reset, EBBackend.init] at hpr

/-- C9: in every backend state reachable by any sequence of
createApplication, createEnvironment, updateTags and reset operations
from a fresh backend, every Application is stored under a key equal to
its own application_name, and every Environment under a key equal to its
own environment_name. -/
theorem C9_keying_invariant (region : String) (ops : List Op) :
    (EBBackend.run (EBBackend.init region) ops).WellKeyed := by
  have hrun : ∀ (l : List Op) (b : EBBackend), b.WellKeyed →
      (b.run l).WellKeyed := by
    intro l
    induction l with
    | nil => intro b h; exact h
    | cons op rest ih =>
        intro b h
        exact ih _ (applyOp_wellKeyed h op)
  refine hrun ops _ ?_
  intro pr hpr
  simp [EBBackend.init] at hpr

/-- C10: an Environment created through the backend with the tags
parameter left at its None default is resolvable by ARN, but updateTags
on it with a non-empty toAdd raises TypeError (iterating the None tag
field), an error outside the InvalidParameterValue / ResourceNotFound
taxonomy. -/
theorem C10_none_tags_type_error (b b1 : EBBackend) (A E : String)
    (st : Option String) (env : Environment) (arn : String) (i j : Nat)
    (tag : Tag) (rest : List Tag)
    (h1 : b.create_environment A E st none = .ok (b1, env))
    (h2 : scanApps b1.region arn b1.applications = some (i, j, env)) :
    b1.update_tags_for_resource arn (tag :: rest) []
      = .error (.typeError "NoneType object is not iterable")
    ∧ isInvalidParameterError
        (b1.update_tags_for_resource arn (tag :: rest) []) = false
    ∧ isResourceNotFoundError
        (b1.update_tags_for_resource arn (tag :: rest) []) = false := by
  obtain ⟨app, hA, hE, henv, hreg, happs⟩ := create_environment_ok h1
  have htags : env.tags = none := by rw [henv]
  have hupd : b1.update_tags_for_resource arn (tag :: rest) []
      = .error (.typeError "NoneType object is not iterable") := by
    unfold EBBackend.update_tags_for_resource
    rw [h2]
    dsimp only
    rw [htags]
    rfl
  exact ⟨hupd, by rw [hupd]; rfl, by rw [hupd]; rfl⟩

theorem C10_witness :
    bEnv1.update_tags_for_resource arnEnv1 [{ key := "k", value := "v" }] []
      = .error (.typeError "NoneType object is not iterable") :=
  (C10_none_tags_type_error bApp1 bEnv1 "app1" "env1" none envNone arnEnv1
    0 0 { key := "k", value := "v" } [] rfl rfl).1

theorem C2_witness :
    bTagA1.find_environment_by_arn arnEnv1 = Except.ok envTagA1 := by
  rw [(C2_find_environment_by_identifier bTagA1 arnEnv1).1]
  rfl
